import Mathlib

/-!
Verification of the OPPM portable package manager (`src/oppm`) against its
natural-language specification.  The Python modules `commands.py`,
`metadata.py` and `shims.py` are shallowly embedded below: pure fragments
become Lean functions, filesystem-mutating operations become functions on
explicit state records, and the outcome of a fallible operation is an
`Except`/sum value.  Filesystem nondeterminism (an I/O call failing, an
archive step raising) is passed in as an explicit oracle argument.  Doc
comments on each definition name the Python function and lines it embeds.
-/

namespace Oppm

/-! ## Path name arithmetic (pathlib semantics)

`commands._extract_app_name_from_path` works on `pathlib.Path.suffix`,
`.stem`, and `str(path).endswith(...)`.  A file name is embedded as a
`List Char` (the final path component; the recognized extensions contain no
`/`, so `str(path).endswith(ext)` holds iff the final component ends with
`ext`). -/

/-- Index of the last `'.'` in a name, `None` when there is none: this is
`str.rfind('.')` restricted to a found result, which is what
`pathlib.PurePath.suffix` and `.stem` are defined from. -/
def lastDotIdx : List Char → Option Nat
  | [] => none
  | c :: cs =>
    match lastDotIdx cs with
    | some i => some (i + 1)
    | none => if c = '.' then some 0 else none

/-- Embedding of `pathlib.PurePath.suffix` on the final path component:
the substring from the last dot, provided that dot is neither the leading
character nor the final character; otherwise the empty string. -/
def pySuffix (name : List Char) : List Char :=
  match lastDotIdx name with
  | some i => if 0 < i ∧ i + 1 < name.length then name.drop i else []
  | none => []

/-- Embedding of `pathlib.PurePath.stem` on the final path component: the
name with `pySuffix` stripped (the whole name when the suffix is empty). -/
def pyStem (name : List Char) : List Char :=
  match lastDotIdx name with
  | some i => if 0 < i ∧ i + 1 < name.length then name.take i else name
  | none => name

/-- `EXE_TYPES` of `commands.py` line 13. -/
def exeTypes : List (List Char) := [".exe".toList, ".bat".toList, ".cmd".toList]

/-- `UNARY_ARCHIVE_TYPES` of `commands.py` line 14. -/
def unaryArchiveTypes : List (List Char) :=
  [".zip".toList, ".tar".toList, ".tgz".toList, ".tbz2".toList, ".txz".toList]

/-- `BINARY_ARCHIVE_TYPES` of `commands.py` line 15. -/
def binaryArchiveTypes : List (List Char) :=
  [".tar.gz".toList, ".tar.bz2".toList, ".tar.xz".toList]

deriving instance DecidableEq for Except

/-- What the input path is on disk: a directory, a regular file, or absent.
`Path.is_dir` / `Path.is_file` checks in the source are read off this. -/
inductive PathKind
  | dir
  | file
  | absent
deriving DecidableEq, Repr

/-- The two `InvalidInputError` messages `_extract_app_name_from_path` can
raise: "Unsupported file type: ... Supported types: ..." (listing the
recognized extensions) and "Input path does not exist or is not a
file/directory". -/
inductive ExtractErr
  | unsupportedFileType
  | doesNotExist
deriving DecidableEq, Repr

/-- Embedding of `commands._extract_app_name_from_path` (lines 18-31).
A directory yields its own (last-component) name; a file whose
`pathlib` suffix is in `EXE_TYPES | UNARY_ARCHIVE_TYPES` yields its stem; a
file whose name ends with a `BINARY_ARCHIVE_TYPES` extension yields
`Path(stem).stem`; any other file raises the unsupported-type message and a
nonexistent path raises the does-not-exist message. -/
def extractAppName : PathKind → List Char → Except ExtractErr (List Char)
  | .dir, name => .ok name
  | .file, name =>
    if (exeTypes ++ unaryArchiveTypes).contains (pySuffix name) then
      .ok (pyStem name)
    else if binaryArchiveTypes.any (fun s => s.isSuffixOf name) then
      .ok (pyStem (pyStem name))
    else
      .error .unsupportedFileType
  | .absent, _ => .error .doesNotExist

/-! ## Metadata (`metadata.py`) -/

/-- One record of `meta.json`'s `apps` list (`metadata.AppEntry`):
a name and a path relative to the root, stored in forward-slash form. -/
structure AppEntry where
  name : String
  relativePath : String
deriving DecidableEq, Repr

/-- Embedding of `metadata.add_app_to_metadata` (lines 36-44) acting on the
loaded `apps` list: every entry carrying the same name is filtered out and
the fresh entry is appended.  The `relative_path` argument stands for
`app_dir.relative_to(root_dir).as_posix()`, already computed (the
`ValueError` branch for an `app_dir` outside the root is not reached by the
callers embedded here, which always pass `apps_dir / app_name`). -/
def addAppToMetadata (appName relPath : String) (apps : List AppEntry) : List AppEntry :=
  apps.filter (fun e => e.name != appName) ++ [⟨appName, relPath⟩]

/-- Embedding of `metadata.remove_app_from_metadata` (lines 47-54): the
filtered list and whether anything was removed (the file is saved only in
that case). -/
def removeAppFromMetadata (appName : String) (apps : List AppEntry) :
    List AppEntry × Bool :=
  let kept := apps.filter (fun e => e.name != appName)
  if kept.length = apps.length then (apps, false) else (kept, true)

/-- Relative path of `apps_dir / name` from the root: `initialize` fixes
`apps_dir = root_dir / "apps"`, so `as_posix()` of it is `apps/<name>`. -/
def appsRel (name : String) : String := "apps/" ++ name

/-- Embedding of `commands.update_metadata` (lines 154-183) after the
directory listing and the metadata load both succeeded: `dirNames` is the
list of names of directories directly under `apps_dir`.  Returns the
resulting `apps` list together with whether `save_metadata` ran (the
function returns early, without writing, when there is nothing to add and
nothing to remove).  The source iterates `apps_to_add` as a Python set;
the insertion order of added entries is therefore unspecified there, and
this embedding appends them in `dirNames` order. -/
def updateMetadata (dirNames : List String) (apps : List AppEntry) :
    List AppEntry × Bool :=
  let metaNames := apps.map (·.name)
  let toAdd := dirNames.filter (fun n => !metaNames.contains n)
  let toRemove := metaNames.filter (fun n => !dirNames.contains n)
  if toAdd.isEmpty && toRemove.isEmpty then (apps, false)
  else
    (((apps ++ toAdd.map fun n => AppEntry.mk n (appsRel n)).filter
        fun e => !toRemove.contains e.name), true)

/-! ## Shims (`shims.py`) -/

/-- Lexicographic comparison of character lists by code point: the order
Python's `sorted` uses on strings. -/
def charListLe : List Char → List Char → Bool
  | [], _ => true
  | _ :: _, [] => false
  | a :: as, b :: bs =>
    if a.toNat < b.toNat then true
    else if b.toNat < a.toNat then false
    else charListLe as bs

/-- String comparison by code points, as Python's `sorted` orders names. -/
def strLe (a b : String) : Bool := charListLe a.toList b.toList

/-- Insertion into a name-sorted list of `(name, target)` pairs. -/
def insertByName (p : String × String) :
    List (String × String) → List (String × String)
  | [] => [p]
  | q :: qs => if strLe p.1 q.1 then p :: q :: qs else q :: insertByName p qs

/-- Insertion sort by name: for the pairwise-distinct names a directory
holds this produces the same list as Python's
`sorted(shims, key=lambda x: x[0])`. -/
def sortByName (l : List (String × String)) : List (String × String) :=
  l.foldr insertByName []

/-- Result of `Path.resolve()` on a symlink of the shims directory.
The source calls `resolve()` without `strict`, so it returns a path even
when the link's target does not exist; it raises `OSError` only for
conditions such as a symlink loop.  The resolved target is carried as an
abstract path string together with whether that target exists on disk. -/
inductive ResolveRes
  | resolved (target : String) (targetExists : Bool)
  | osError
deriving DecidableEq, Repr

/-- One directory entry of the shims directory as `list_shims` sees it. -/
inductive ShimKind
  | symlink (res : ResolveRes)
  | notSymlink
deriving DecidableEq, Repr

/-- Name plus kind of one entry under `shims_dir`. -/
structure ShimDirEntry where
  name : String
  kind : ShimKind
deriving DecidableEq, Repr

/-- Embedding of `shims.list_shims` (lines 43-57) on an existing shims
directory: every symlink whose `resolve()` call returns is paired with its
resolved target — including a symlink whose target does not exist, since
non-strict `resolve()` does not raise for that — an entry whose resolution
raises `OSError` is skipped, a non-symlink entry is skipped, and the pairs
are returned sorted by name. -/
def listShims (entries : List ShimDirEntry) : List (String × String) :=
  sortByName (entries.filterMap fun e =>
    match e.kind with
    | .symlink (.resolved t _) => some (e.name, t)
    | .symlink .osError => none
    | .notSymlink => none)

/-- What occupies `shims_dir/shim_name` when `create_shim` runs. -/
inductive Occupant
  | vacant
  | regularFile
  | directory
  | symlinkTo (targetExists : Bool)
deriving DecidableEq, Repr

/-- Result of `Path.exists()` on the shim path: it follows symlinks, so a
symlink whose own target does not exist reports `false`. -/
def occupantExists : Occupant → Bool
  | .vacant => false
  | .regularFile => true
  | .directory => true
  | .symlinkTo te => te

/-- The two `ShimError` messages `create_shim` raises: "Shim '<name>'
already exists at <path>" and "Failed to create shim for <path>: ...". -/
inductive ShimErrKind
  | alreadyExists
  | creationFailed
deriving DecidableEq, Repr

/-- Embedding of `shims.create_shim` (lines 25-41).  The shims directory
itself is created by the initial `mkdir(parents=True, exist_ok=True)`.  If
`shim_path.exists()` the already-exists `ShimError` is raised.  Otherwise
`symlink_to` is attempted: it raises `FileExistsError` (an `OSError`) when
anything — in particular a broken symlink, invisible to `exists()` — still
occupies the path, and raises `OSError` when the platform forbids symlink
creation (`symlinkOk = false`); either is wrapped as the creation-failed
`ShimError`.  `targetExists` records whether the executable being linked
exists (callers have checked it does).  Returns the outcome together with
what occupies the path afterwards. -/
def createShim (occ : Occupant) (symlinkOk targetExists : Bool) :
    Except ShimErrKind Unit × Occupant :=
  if occupantExists occ then (.error .alreadyExists, occ)
  else
    match occ with
    | .vacant =>
      if symlinkOk then (.ok (), .symlinkTo targetExists)
      else (.error .creationFailed, .vacant)
    | o => (.error .creationFailed, o)

/-! ## Pack (`commands.pack`) -/

/-- What happens inside `pack`'s `try` block (lines 262-276): either
`make_archive` returns the expected path and the success reporting runs, or
some step raises — `make_archive` itself, the explicit `PackError` for a
returned path that differs from the expected output, or the `stat` call —
in which case `fileLeft` records whether `output_file` exists at that
moment and `unlinkOk` whether the cleanup `unlink` would succeed. -/
inductive PackTry
  | success
  | raises (fileLeft : Bool) (unlinkOk : Bool)
deriving DecidableEq, Repr

/-- Which `PackError` a `pack` call raised. -/
inductive PackWhy
  | rootMissing
  | outputAlreadyExists
  | cleanupUnlinkFailed
deriving DecidableEq, Repr

/-- How a call of `pack` terminates: the success path ran to its end, a
`PackError` was raised, or the `except` block swallowed the failure and the
function returned normally without completing. -/
inductive PackOutcome
  | completed
  | raisedPackError (why : PackWhy)
  | returnedAfterFailure
deriving DecidableEq, Repr

/-- Embedding of `commands.pack` (lines 240-283) after the output path has
been computed: `rootOk` is whether the resolved root exists and is a
directory, `outputExists` whether the output file already exists.  In the
`except` block (lines 277-283) the partially written output file is
deleted when present, but `PackError` is re-raised only when that `unlink`
itself fails; when the unlink succeeds, or no partial file exists, control
falls off the end of the handler and `pack` returns normally.  Returns the
outcome together with whether the output file exists afterwards. -/
def pack (rootOk outputExists overwrite : Bool) (tryStep : PackTry) :
    PackOutcome × Bool :=
  if !rootOk then (.raisedPackError .rootMissing, outputExists)
  else if outputExists && !overwrite then
    (.raisedPackError .outputAlreadyExists, outputExists)
  else
    match tryStep with
    | .success => (.completed, true)
    | .raises fileLeft unlinkOk =>
      if fileLeft then
        if unlinkOk then (.returnedAfterFailure, false)
        else (.raisedPackError .cleanupUnlinkFailed, true)
      else (.returnedAfterFailure, false)

/-! ## Rebuild (`commands.rebuild`) -/

/-- One top-level item of the archive once extracted into the temporary
directory: its name, whether it is a directory, and (for a directory) the
content it would put at the target root. -/
structure ExtractedItem where
  name : String
  isDir : Bool
  content : List String
deriving DecidableEq, Repr

/-- The structure check of `_extract_and_place_archive` (lines 60-62): the
extracted top level must be exactly one item and that item a directory. -/
def singleRootDir : List ExtractedItem → Bool
  | [i] => i.isDir
  | _ => false

/-- How a call of `rebuild` terminates. -/
inductive RebuildOutcome
  | ok
  | raisedInvalidInput
  | raisedRebuildError
  | cancelled
deriving DecidableEq, Repr

/-- Embedding of `commands.rebuild` (lines 286-326) with an explicit target
root (the config-lookup fallback for an omitted target is not modelled),
together with `_extract_and_place_archive` (lines 52-70), where
`unpack_archive` succeeds and leaves `items` at the top of the temporary
directory.  `target` is the current content of the target root (`none`
when the directory does not exist) and `confirm` the answer to the
overwrite prompt shown for a non-empty target.  The invalid-structure
`RebuildError` of line 62 is raised before the target is touched;
`rebuild`'s own `except` re-wraps it, still as a `RebuildError`.  Returns
the outcome and the target-root content afterwards. -/
def rebuildRun (archiveExists nameTarGz : Bool) (target : Option (List String))
    (confirm : Bool) (items : List ExtractedItem) :
    RebuildOutcome × Option (List String) :=
  if !archiveExists then (.raisedInvalidInput, target)
  else if !nameTarGz then (.raisedInvalidInput, target)
  else if (match target with
      | some c => !c.isEmpty && !confirm
      | none => false) then
    (.cancelled, target)
  else
    match items with
    | [i] =>
      if i.isDir then (.ok, some i.content) else (.raisedRebuildError, target)
    | _ => (.raisedRebuildError, target)

/-! ## Install (`commands.install_app`) -/

/-- State that `install_app` touches: the directory names directly under
`apps_dir` and the metadata `apps` list. -/
structure InstallState where
  appDirs : List String
  apps : List AppEntry
deriving DecidableEq, Repr

/-- Errors `install_app` raises: the two `InvalidInputError` flavours that
propagate out of the name derivation or the existence check, and
`InstallError` wrapping the text of the underlying materialization
exception. -/
inductive InstallErr
  | invalidInput
  | unsupportedFileType
  | installError (cause : String)
deriving DecidableEq, Repr

/-- Outcome of the materialization step — `copytree` for a directory,
`copy` for an executable, `unpack_archive` for an archive — with, on
failure, the exception text and whether a partially created application
directory was left behind at the moment the exception was raised. -/
inductive Materialize
  | success
  | failure (cause : String) (partialLeft : Bool)
deriving DecidableEq, Repr

/-- Embedding of `commands.install_app` (lines 103-135).  The input is
described by its `PathKind` and final path component; `override` is the
`name` argument (`none` when absent; the source also treats an empty
string as absent, via Python truthiness).  Per the source: a missing input
raises the invalid-input error (line 104); the name is derived by
`_extract_app_name_from_path` before the override is applied, so its
errors propagate even when a `name` was given; an existing application
directory of the final name is removed before materialization (lines
110-112); on materialization failure the partial directory, if any, is
removed and `InstallError` is raised wrapping the cause, leaving the
metadata untouched (lines 128-132); only on success does
`add_app_to_metadata` upsert the entry (line 134). -/
def installApp (σ : InstallState) (inputKind : PathKind) (inputName : List Char)
    (override : Option String) (mat : Materialize) :
    Except InstallErr Unit × InstallState :=
  if inputKind = .absent then (.error .invalidInput, σ)
  else
    match extractAppName inputKind inputName with
    | .error .unsupportedFileType => (.error .unsupportedFileType, σ)
    | .error .doesNotExist => (.error .invalidInput, σ)
    | .ok derived =>
      let appName := override.getD (String.mk derived)
      let dirs₁ := σ.appDirs.filter (fun d => d != appName)
      match mat with
      | .success =>
        (.ok (), ⟨appName :: dirs₁,
          addAppToMetadata appName (appsRel appName) σ.apps⟩)
      | .failure cause partialLeft =>
        ((.error (.installError cause)),
          ⟨(if partialLeft then appName :: dirs₁ else dirs₁).filter
            (fun d => d != appName), σ.apps⟩)

/-! ## Health check (`commands.verify_health`) -/

/-- What `root_dir / relative_path` is on disk for one metadata entry:
missing, not a directory, or a directory that is empty or non-empty. -/
inductive StatKind
  | missing
  | nonDir
  | dirEmpty
  | dirNonempty
deriving DecidableEq, Repr

/-- A metadata entry's relative path, as the checker resolves it.  The fix
pass deletes direct non-directory children of `apps_dir`, deletes entries
of `shims_dir`, and rewrites `meta.json` (which stays a file); it never
touches the inside of an application directory.  Paths whose stat those
deletions can affect are therefore modelled with a state-dependent stat:
`underApps n` is `apps/<n>`; `underShims s` is `shims/<s>` (resolved
through the shim, since `exists`/`is_dir` follow symlinks);
`underShimsDeep s st` is a path strictly below `shims/<s>`, whose stat is
`st` while the shim `s` resolves to a directory and `missing` otherwise
(the target subtree itself is never touched); `appsRoot` and `shimsRoot`
are the `apps` and `shims` directories themselves, whose emptiness the
deletions can change.  `outside k` covers every remaining path — deeper
paths under an `apps_dir` child, `meta.json`, the root, anything else —
whose stat `k` the fix cannot change. -/
inductive RelPath
  | underApps (n : String)
  | underShims (s : String)
  | underShimsDeep (s : String) (st : StatKind)
  | appsRoot
  | shimsRoot
  | outside (k : StatKind)
deriving DecidableEq, Repr

/-- One metadata entry as the checker reads it. -/
structure HEntry where
  name : String
  rel : RelPath
deriving DecidableEq, Repr

/-- One direct child of `apps_dir`: a directory (with whether it has any
content) or a non-directory entry. -/
inductive AppChild
  | childDir (nonempty : Bool)
  | childFile
deriving DecidableEq, Repr

/-- The `d.is_dir()` test on a direct child of `apps_dir`. -/
def isDirChild : AppChild → Bool
  | .childDir _ => true
  | .childFile => false

/-- Resolved target of a shim symlink: a direct child `n` of `apps_dir`; a
deeper path below the direct child `n`, whose stat is `st` while `n` is a
directory and `missing` otherwise (the fix pass never deletes inside an
application directory, so `st` is stable); or a path outside `apps_dir`
with its stat `st`, which the fixes do not affect. -/
inductive ShimTarget
  | appsChild (n : String)
  | appsDeep (n : String) (st : StatKind)
  | outsideApps (st : StatKind)
deriving DecidableEq, Repr

/-- One entry of `shims_dir` as the checker sees it: a symlink with its
resolved target, a symlink whose `resolve()` raises (`OSError` /
`RuntimeError`), or a non-symlink file. -/
inductive ShimNode
  | link (t : ShimTarget)
  | linkErr
  | nonLink
deriving DecidableEq, Repr

/-- State `verify_health` reads and repairs: metadata entries, direct
children of `apps_dir`, and entries of `shims_dir`.  The metadata file,
`apps_dir` and `shims_dir` exist and the metadata loads — otherwise
`verify_health` returns `False` at lines 392-406 having changed
nothing. -/
structure HealthState where
  meta : List HEntry
  apps : List (String × AppChild)
  shims : List (String × ShimNode)
deriving DecidableEq, Repr

/-- Stat of the named direct child of `apps_dir`: the first listed match
(a file system lists each name at most once). -/
def lookupApp : List (String × AppChild) → String → Option AppChild
  | [], _ => none
  | p :: rest, n => if p.1 == n then some p.2 else lookupApp rest n

/-- Node of the named entry of `shims_dir`: the first listed match. -/
def lookupShim : List (String × ShimNode) → String → Option ShimNode
  | [], _ => none
  | p :: rest, n => if p.1 == n then some p.2 else lookupShim rest n

/-- Stat of the path `apps/<n>` given what the apps listing holds at
`n` (`is_dir` follows symlinks, so a symlink to a directory is a
`childDir`). -/
def childStat : Option AppChild → StatKind
  | none => .missing
  | some (.childDir true) => .dirNonempty
  | some (.childDir false) => .dirEmpty
  | some .childFile => .nonDir

/-- Stat of a resolved shim-target path against the current apps
listing. -/
def targetStat (apps : List (String × AppChild)) : ShimTarget → StatKind
  | .appsChild n => childStat (lookupApp apps n)
  | .appsDeep n st =>
    (match lookupApp apps n with
      | some (.childDir _) => st
      | _ => .missing)
  | .outsideApps st => st

/-- Stat of the path `shims/<s>`, following the shim when it is a symlink
(`exists`/`is_dir` follow links): a non-symlink file stats as a file, a
symlink whose resolution raises stats as missing (`exists()` swallows the
`OSError`), and a symlink stats as its resolved target. -/
def shimStat (apps : List (String × AppChild)) : ShimNode → StatKind
  | .link t => targetStat apps t
  | .linkErr => .missing
  | .nonLink => .nonDir

/-- Stat of `root_dir / rel` against the current apps and shims
listings. -/
def statOf (apps : List (String × AppChild))
    (shims : List (String × ShimNode)) : RelPath → StatKind
  | .underApps n => childStat (lookupApp apps n)
  | .underShims s =>
    (match lookupShim shims s with
      | none => .missing
      | some node => shimStat apps node)
  | .underShimsDeep s st =>
    (match lookupShim shims s with
      | some node =>
        (match shimStat apps node with
          | .dirEmpty => st
          | .dirNonempty => st
          | _ => .missing)
      | none => .missing)
  | .appsRoot => if apps.isEmpty then .dirEmpty else .dirNonempty
  | .shimsRoot => if shims.isEmpty then .dirEmpty else .dirNonempty
  | .outside k => k

/-- Entry classified invalid (lines 418-430): its path is missing or not a
directory. -/
def entryInvalid (apps : List (String × AppChild))
    (shims : List (String × ShimNode)) (e : HEntry) : Bool :=
  match statOf apps shims e.rel with
  | .missing => true
  | .nonDir => true
  | _ => false

/-- Entry classified empty (lines 432-437): the directory exists but holds
nothing. -/
def entryEmpty (apps : List (String × AppChild))
    (shims : List (String × ShimNode)) (e : HEntry) : Bool :=
  statOf apps shims e.rel == .dirEmpty

/-- `invalid_apps` collected by the audit loop, in metadata order. -/
def invalidApps (σ : HealthState) : List String :=
  (σ.meta.filter (entryInvalid σ.apps σ.shims)).map HEntry.name

/-- `empty_apps` collected by the audit loop, in metadata order. -/
def emptyApps (σ : HealthState) : List String :=
  (σ.meta.filter (entryEmpty σ.apps σ.shims)).map HEntry.name

/-- `actual_apps` (line 445): directory names under `apps_dir`. -/
def dirNames (σ : HealthState) : List String :=
  (σ.apps.filter (fun p => isDirChild p.2)).map Prod.fst

/-- `files` (line 446): non-directory names under `apps_dir`. -/
def fileNames (σ : HealthState) : List String :=
  (σ.apps.filter (fun p => !isDirChild p.2)).map Prod.fst

/-- Names recorded in metadata (line 447). -/
def metaNames (σ : HealthState) : List String :=
  σ.meta.map HEntry.name

/-- `orphaned` (line 448): on-disk directories with no metadata entry.  The
source computes this from the metadata as loaded, before any fix
prunes entries. -/
def orphanedDirs (σ : HealthState) : List String :=
  (dirNames σ).filter (fun n => !(metaNames σ).contains n)

/-- Whether the resolved shim target exists (line 480): its stat is not
`missing`. -/
def shimTargetLives (apps : List (String × AppChild)) (t : ShimTarget) : Bool :=
  targetStat apps t != StatKind.missing

/-- Whether the resolved shim target lies inside `apps_dir` (line 486). -/
def shimTargetInApps : ShimTarget → Bool
  | .appsChild _ => true
  | .appsDeep _ _ => true
  | .outsideApps _ => false

/-- Shim classified broken (lines 480-484 and 491-494): resolved target
missing, or resolution raised. -/
def shimBroken (apps : List (String × AppChild)) : ShimNode → Bool
  | .link t => !shimTargetLives apps t
  | .linkErr => true
  | .nonLink => false

/-- Shim classified external (lines 486-489): target exists but lies
outside `apps_dir`. -/
def shimExternal (apps : List (String × AppChild)) : ShimNode → Bool
  | .link t => shimTargetLives apps t && !shimTargetInApps t
  | .linkErr => false
  | .nonLink => false

/-- Entry classified a non-symlink file (lines 473-477). -/
def shimNonLink : ShimNode → Bool
  | .nonLink => true
  | _ => false

/-- `broken_shims` collected by the audit. -/
def brokenShims (σ : HealthState) : List String :=
  (σ.shims.filter (fun p => shimBroken σ.apps p.2)).map Prod.fst

/-- `external_shims` collected by the audit. -/
def externalShims (σ : HealthState) : List String :=
  (σ.shims.filter (fun p => shimExternal σ.apps p.2)).map Prod.fst

/-- `non_symlink_files` collected by the audit. -/
def nonLinkShims (σ : HealthState) : List String :=
  (σ.shims.filter (fun p => shimNonLink p.2)).map Prod.fst

/-- `issues_found` once the audit is complete. -/
def issuesFound (σ : HealthState) : Bool :=
  !(invalidApps σ).isEmpty || !(emptyApps σ).isEmpty
    || !(orphanedDirs σ).isEmpty || !(fileNames σ).isEmpty
    || !(brokenShims σ).isEmpty || !(externalShims σ).isEmpty
    || !(nonLinkShims σ).isEmpty

/-- Insertion into a sorted list of names, by code point as Python's
`sorted` orders strings. -/
def insertStr (a : String) : List String → List String
  | [] => [a]
  | b :: bs => if strLe a b then a :: b :: bs else b :: insertStr a bs

/-- Insertion sort over names; agrees with Python's `sorted` on the
pairwise-distinct names a directory listing yields. -/
def sortStr (l : List String) : List String := l.foldr insertStr []

/-- Embedding of the fix pass of `verify_health(config, fix=True)`
(`commands.py` lines 388-577) on a state the early returns do not reject.
When the audit found no issues the function returns `True` at line 505
having changed nothing.  Otherwise, per lines 523-577:
entries named in `invalid_apps` or `empty_apps` are dropped from the
metadata; orphaned directories are appended to it, in sorted order, as
`apps/<name>` entries (the orphan set was computed from the pre-prune
metadata); non-directory children of `apps_dir` are unlinked; and of the
shim fixes only external shims and non-symlink files are actually
unlinked — each unlink is guarded by `shim_path.exists()`, which follows
the symlink and reports `False` for exactly the links classified broken,
so broken shims survive the fix.  Returns the state afterwards. -/
def healthFix (σ : HealthState) : HealthState :=
  if issuesFound σ then
    { meta := (σ.meta.filter (fun e =>
        !((invalidApps σ ++ emptyApps σ).contains e.name)))
        ++ (sortStr (orphanedDirs σ)).map (fun n => HEntry.mk n (.underApps n)),
      apps := σ.apps.filter (fun p => isDirChild p.2),
      shims := σ.shims.filter (fun p =>
        !(shimExternal σ.apps p.2 || shimNonLink p.2)) }
  else σ

end Oppm

namespace Oppm

/-! ## Theorems -/

theorem lastDotIdx_append (xs ys : List Char) (j : Nat)
    (h : lastDotIdx ys = some j) :
    lastDotIdx (xs ++ ys) = some (xs.length + j) := by
  induction xs with
  | nil => simpa using h
  | cons c cs ih =>
    show (match lastDotIdx (cs ++ ys) with
      | some i => some (i + 1)
      | none => if c = '.' then some 0 else none) = some ((c :: cs).length + j)
    rw [ih]
    simp only [List.length_cons, Option.some.injEq]
    omega

theorem drop_append_len {α : Type} (xs ys : List α) (n : Nat) :
    (xs ++ ys).drop (xs.length + n) = ys.drop n := by
  induction xs with
  | nil => simp
  | cons c cs ih => simp [Nat.succ_add, ih]

theorem take_append_len {α : Type} (xs ys : List α) (n : Nat) :
    (xs ++ ys).take (xs.length + n) = xs ++ ys.take n := by
  induction xs with
  | nil => simp
  | cons c cs ih => simp [Nat.succ_add, ih]

theorem pySuffix_append (base ext : List Char) (k : Nat)
    (hk : lastDotIdx ext = some k) (h0 : 0 < base.length + k)
    (h1 : k + 1 < ext.length) :
    pySuffix (base ++ ext) = ext.drop k := by
  have hidx := lastDotIdx_append base ext k hk
  have hcond : 0 < base.length + k ∧ base.length + k + 1 < (base ++ ext).length := by
    constructor
    · omega
    · simp only [List.length_append]
      omega
  unfold pySuffix
  rw [hidx]
  show (if 0 < base.length + k ∧ base.length + k + 1 < (base ++ ext).length
      then List.drop (base.length + k) (base ++ ext) else []) = List.drop k ext
  rw [if_pos hcond]
  exact drop_append_len base ext k

theorem pyStem_append (base ext : List Char) (k : Nat)
    (hk : lastDotIdx ext = some k) (h0 : 0 < base.length + k)
    (h1 : k + 1 < ext.length) :
    pyStem (base ++ ext) = base ++ ext.take k := by
  have hidx := lastDotIdx_append base ext k hk
  have hcond : 0 < base.length + k ∧ base.length + k + 1 < (base ++ ext).length := by
    constructor
    · omega
    · simp only [List.length_append]
      omega
  unfold pyStem
  rw [hidx]
  show (if 0 < base.length + k ∧ base.length + k + 1 < (base ++ ext).length
      then List.take (base.length + k) (base ++ ext) else base ++ ext)
      = base ++ List.take k ext
  rw [if_pos hcond]
  exact take_append_len base ext k

theorem isPrefixOf_append_self (l r : List Char) : l.isPrefixOf (l ++ r) = true := by
  induction l with
  | nil => simp [List.isPrefixOf]
  | cons c cs ih => simp [List.isPrefixOf, ih]

theorem isSuffixOf_append_self (l xs : List Char) : l.isSuffixOf (xs ++ l) = true := by
  simp only [List.isSuffixOf, List.reverse_append]
  exact isPrefixOf_append_self l.reverse xs.reverse

/-- Stripping both suffixes of one recognized double extension: the branch of
`_extract_app_name_from_path` taken for `*.tar.gz`, `*.tar.bz2`, `*.tar.xz`
returns `Path(stem).stem`, which is the name with the full double extension
removed. -/
theorem extract_double_ext (base ext : List Char) (k : Nat) (hb : base ≠ [])
    (hk : lastDotIdx ext = some k) (h1 : k + 1 < ext.length)
    (hmem : ext ∈ binaryArchiveTypes)
    (hsuf : (exeTypes ++ unaryArchiveTypes).contains (ext.drop k) = false)
    (hstem : lastDotIdx (ext.take k) = some 0) (hk2 : 1 < k) :
    extractAppName .file (base ++ ext) = .ok base := by
  have hlen : 0 < base.length := List.length_pos.mpr hb
  have hS := pySuffix_append base ext k hk (by omega) h1
  have hT := pyStem_append base ext k hk (by omega) h1
  have hany : binaryArchiveTypes.any (fun s => s.isSuffixOf (base ++ ext)) = true := by
    refine List.any_eq_true.mpr ⟨ext, hmem, ?_⟩
    exact isSuffixOf_append_self ext base
  have hT2 : pyStem (base ++ ext.take k) = base := by
    have hlt : 0 + 1 < (ext.take k).length := by
      simp only [List.length_take]
      omega
    have := pyStem_append base (ext.take k) 0 hstem (by omega) hlt
    simpa using this
  have hbranch : extractAppName .file (base ++ ext)
      = .ok (pyStem (pyStem (base ++ ext))) := by
    show (if (exeTypes ++ unaryArchiveTypes).contains (pySuffix (base ++ ext)) = true then
          Except.ok (pyStem (base ++ ext))
        else if (binaryArchiveTypes.any fun s => s.isSuffixOf (base ++ ext)) = true then
          Except.ok (pyStem (pyStem (base ++ ext)))
        else Except.error ExtractErr.unsupportedFileType)
        = Except.ok (pyStem (pyStem (base ++ ext)))
    rw [hS, hsuf, hany]
    simp
  rw [hbranch, hT, hT2]

/-- C7: `deriveName` (`commands._extract_app_name_from_path`, lines 18-31) is
a pure function of the input path and its filesystem kind: a directory maps
to its last path component; a file whose pathlib suffix is one of the
recognized single-suffix extensions (`.exe .bat .cmd .zip .tar .tgz .tbz2
.txz`) maps to its stem; a file ending in a recognized double-suffix archive
extension (`.tar.gz .tar.bz2 .tar.xz`) has both suffixes stripped
(`app.tar.gz` gives `app`); any other suffix fails with the
unsupported-input message (which lists the recognized extensions); a
nonexistent input fails with the invalid-input message. -/
theorem extract_app_name_spec :
    (∀ name : List Char, extractAppName .dir name = .ok name)
    ∧ (∀ name : List Char,
        (exeTypes ++ unaryArchiveTypes).contains (pySuffix name) = true →
        extractAppName .file name = .ok (pyStem name))
    ∧ (∀ base : List Char, base ≠ [] →
        extractAppName .file (base ++ ".tar.gz".toList) = .ok base
        ∧ extractAppName .file (base ++ ".tar.bz2".toList) = .ok base
        ∧ extractAppName .file (base ++ ".tar.xz".toList) = .ok base)
    ∧ (∀ name : List Char,
        (exeTypes ++ unaryArchiveTypes).contains (pySuffix name) = false →
        binaryArchiveTypes.any (fun s => s.isSuffixOf name) = false →
        extractAppName .file name = .error .unsupportedFileType)
    ∧ (∀ name : List Char, extractAppName .absent name = .error .doesNotExist)
    ∧ extractAppName .file "app.exe".toList = .ok "app".toList
    ∧ extractAppName .file "app.zip".toList = .ok "app".toList
    ∧ extractAppName .file "app.tar.gz".toList = .ok "app".toList
    ∧ extractAppName .file "file.xyz".toList = .error .unsupportedFileType := by
  refine ⟨fun name => rfl, fun name h => ?_, fun base hb => ?_, fun name h1 h2 => ?_,
    fun name => rfl, by decide, by decide, by decide, by decide⟩
  · show (if (exeTypes ++ unaryArchiveTypes).contains (pySuffix name) = true then
        Except.ok (pyStem name)
      else if (binaryArchiveTypes.any fun s => s.isSuffixOf name) = true then
        Except.ok (pyStem (pyStem name))
      else Except.error ExtractErr.unsupportedFileType) = Except.ok (pyStem name)
    rw [h]
    simp
  · refine ⟨?_, ?_, ?_⟩
    · exact extract_double_ext base ".tar.gz".toList 4 hb (by decide) (by decide)
        (by decide) (by decide) (by decide) (by decide)
    · exact extract_double_ext base ".tar.bz2".toList 4 hb (by decide) (by decide)
        (by decide) (by decide) (by decide) (by decide)
    · exact extract_double_ext base ".tar.xz".toList 4 hb (by decide) (by decide)
        (by decide) (by decide) (by decide) (by decide)
  · show (if (exeTypes ++ unaryArchiveTypes).contains (pySuffix name) = true then
        Except.ok (pyStem name)
      else if (binaryArchiveTypes.any fun s => s.isSuffixOf name) = true then
        Except.ok (pyStem (pyStem name))
      else Except.error ExtractErr.unsupportedFileType)
      = Except.error ExtractErr.unsupportedFileType
    rw [h1, h2]
    simp

/-- C6: `metadata.add_app_to_metadata` (lines 36-44) keeps names unique:
starting from an `apps` list with no duplicate names, the upsert first
removes every entry with the given name and then appends the new one, so
the result again has no duplicate names and contains exactly one entry for
the given name — the freshly appended one. -/
theorem add_app_to_metadata_unique (apps : List AppEntry) (n rel : String)
    (h : (apps.map AppEntry.name).Nodup) :
    ((addAppToMetadata n rel apps).map AppEntry.name).Nodup
    ∧ (addAppToMetadata n rel apps).filter (fun e => e.name == n)
        = [AppEntry.mk n rel] := by
  constructor
  · unfold addAppToMetadata
    rw [List.map_append, List.nodup_append]
    refine ⟨List.Sublist.nodup (List.Sublist.map AppEntry.name
      (List.filter_sublist apps)) h, by simp, ?_⟩
    intro a ha hb
    simp only [List.map_cons, List.map_nil, List.mem_singleton] at hb
    subst hb
    simp only [List.mem_map, List.mem_filter, bne_iff_ne] at ha
    obtain ⟨e, ⟨-, hne⟩, rfl⟩ := ha
    exact hne rfl
  · unfold addAppToMetadata
    rw [List.filter_append]
    have h1 : (apps.filter fun e => e.name != n).filter (fun e => e.name == n)
        = [] := by
      refine List.filter_eq_nil_iff.mpr ?_
      intro e he
      simp only [List.mem_filter, bne_iff_ne] at he
      simp [he.2]
    rw [h1]
    simp

/-- Closed instance of `add_app_to_metadata_unique` discharging its
no-duplicates hypothesis at a one-entry metadata list. -/
theorem add_app_to_metadata_unique_witness :
    ((addAppToMetadata "b" "apps/b" [AppEntry.mk "a" "apps/a"]).map
        AppEntry.name).Nodup
    ∧ (addAppToMetadata "b" "apps/b" [AppEntry.mk "a" "apps/a"]).filter
        (fun e => e.name == "b") = [AppEntry.mk "b" "apps/b"] :=
  add_app_to_metadata_unique [AppEntry.mk "a" "apps/a"] "b" "apps/b" (by decide)

/-- C5: after `commands.update_metadata` (lines 154-183) runs on an existing
apps directory and readable metadata, the names in the resulting metadata
are exactly the directory names directly under `apps_dir`: a directory
missing from metadata is added with its real relative path `apps/<name>`, a
metadata name with no directory is dropped (entries whose name is on disk
are kept as they are), and when the two name sets already agree nothing is
written. -/
theorem update_metadata_sync (dirNames : List String) (apps : List AppEntry) :
    (∀ n, n ∈ (updateMetadata dirNames apps).1.map AppEntry.name ↔ n ∈ dirNames)
    ∧ (∀ n, n ∈ dirNames → n ∉ apps.map AppEntry.name →
        AppEntry.mk n (appsRel n) ∈ (updateMetadata dirNames apps).1)
    ∧ (∀ e, e ∈ apps → e.name ∈ dirNames → e ∈ (updateMetadata dirNames apps).1)
    ∧ ((∀ n, n ∈ apps.map AppEntry.name ↔ n ∈ dirNames) →
        updateMetadata dirNames apps = (apps, false)) := by
  set M := apps.map AppEntry.name with hM
  set toAdd := dirNames.filter (fun n => !M.contains n) with hAdd
  set toRemove := M.filter (fun n => !dirNames.contains n) with hRem
  have hkey : updateMetadata dirNames apps =
      if toAdd.isEmpty && toRemove.isEmpty then (apps, false)
      else ((apps ++ toAdd.map fun n => AppEntry.mk n (appsRel n)).filter
        fun e => !toRemove.contains e.name, true) := rfl
  have hmemAdd : ∀ n, n ∈ toAdd ↔ n ∈ dirNames ∧ n ∉ M := by
    intro n
    simp [hAdd, List.mem_filter, List.elem_iff]
  have hmemRem : ∀ n, n ∈ toRemove ↔ n ∈ M ∧ n ∉ dirNames := by
    intro n
    simp [hRem, List.mem_filter, List.elem_iff]
  by_cases hboth : toAdd = [] ∧ toRemove = []
  · have hif : (toAdd.isEmpty && toRemove.isEmpty) = true := by
      simp [hboth.1, hboth.2]
    rw [hkey, if_pos hif]
    refine ⟨fun n => ⟨fun hn => ?_, fun hn => ?_⟩, fun n hn hm => ?_,
      fun e he _ => he, fun _ => rfl⟩
    · by_contra hd
      have : n ∈ toRemove := (hmemRem n).mpr ⟨hn, hd⟩
      rw [hboth.2] at this
      exact List.not_mem_nil n this
    · by_contra hm
      have : n ∈ toAdd := (hmemAdd n).mpr ⟨hn, hm⟩
      rw [hboth.1] at this
      exact List.not_mem_nil n this
    · exfalso
      have : n ∈ toAdd := (hmemAdd n).mpr ⟨hn, hm⟩
      rw [hboth.1] at this
      exact List.not_mem_nil n this
  · have hif : ¬ (toAdd.isEmpty && toRemove.isEmpty) = true := by
      intro hc
      rw [Bool.and_eq_true, List.isEmpty_iff, List.isEmpty_iff] at hc
      exact hboth hc
    rw [hkey, if_neg hif]
    refine ⟨fun n => ⟨fun hn => ?_, fun hn => ?_⟩, fun n hn hm => ?_,
      fun e he hd => ?_, fun hiff => ?_⟩
    · rcases List.mem_map.mp hn with ⟨e, heR, rfl⟩
      rcases List.mem_filter.mp heR with ⟨heA, hpred⟩
      have hnotRem : e.name ∉ toRemove := by
        simpa [List.elem_iff] using hpred
      rcases List.mem_append.mp heA with he | he
      · have hmem : e.name ∈ M := List.mem_map_of_mem AppEntry.name he
        by_contra hd
        exact hnotRem ((hmemRem _).mpr ⟨hmem, hd⟩)
      · rcases List.mem_map.mp he with ⟨m, hm, rfl⟩
        exact ((hmemAdd m).mp hm).1
    · have hnr : n ∉ toRemove := fun hc => ((hmemRem n).mp hc).2 hn
      by_cases hm : n ∈ M
      · rcases List.mem_map.mp hm with ⟨e, he, rfl⟩
        refine List.mem_map.mpr ⟨e, List.mem_filter.mpr
          ⟨List.mem_append.mpr (.inl he), ?_⟩, rfl⟩
        simpa [List.elem_iff] using hnr
      · have ht : n ∈ toAdd := (hmemAdd n).mpr ⟨hn, hm⟩
        refine List.mem_map.mpr ⟨AppEntry.mk n (appsRel n), List.mem_filter.mpr
          ⟨List.mem_append.mpr (.inr (List.mem_map.mpr ⟨n, ht, rfl⟩)), ?_⟩, rfl⟩
        simpa [List.elem_iff] using hnr
    · have ht : n ∈ toAdd := (hmemAdd n).mpr ⟨hn, hm⟩
      have hnr : n ∉ toRemove := fun hc => ((hmemRem n).mp hc).2 hn
      refine List.mem_filter.mpr
        ⟨List.mem_append.mpr (.inr (List.mem_map.mpr ⟨n, ht, rfl⟩)), ?_⟩
      simpa [List.elem_iff] using hnr
    · have hnr : e.name ∉ toRemove := fun hc => ((hmemRem e.name).mp hc).2 hd
      refine List.mem_filter.mpr ⟨List.mem_append.mpr (.inl he), ?_⟩
      simpa [List.elem_iff] using hnr
    · exfalso
      apply hboth
      constructor
      · refine List.filter_eq_nil_iff.mpr ?_
        intro n hn
        simp [List.elem_iff, (hiff n).mpr hn]
      · refine List.filter_eq_nil_iff.mpr ?_
        intro n hn
        simp [List.elem_iff, (hiff n).mp hn]

/-- C3 evidence: `shims.list_shims` does not skip a symlink whose target
does not exist.  Its `try/except OSError` is commented "Skip broken
symlinks", but non-strict `resolve()` returns normally for a missing
target, so the broken link `ghost` appears in the listing.  The second
conjunct shows the sorted-by-name output on resolvable entries. -/
theorem list_shims_includes_broken_symlink :
    listShims [ShimDirEntry.mk "ghost" (.symlink (.resolved "apps/gone/tool" false))]
      = [("ghost", "apps/gone/tool")]
    ∧ listShims [ShimDirEntry.mk "zeta" (.symlink (.resolved "t1" true)),
        ShimDirEntry.mk "alpha" (.symlink (.resolved "t2" true)),
        ShimDirEntry.mk "plain" .notSymlink]
      = [("alpha", "t2"), ("zeta", "t1")] := by
  decide

/-- C8 counterexample: with a broken symlink occupying
`shims_dir/shim_name`, `create_shim` does not raise the already-exists
`ShimError` the claim requires — `Path.exists()` follows the link and
reports `false`, so the attempt falls through to `symlink_to` and the
resulting `FileExistsError` is wrapped as the creation-failed message. -/
theorem create_shim_broken_symlink_counterexample :
    (createShim (.symlinkTo false) true true).1
      = .error ShimErrKind.creationFailed
    ∧ ShimErrKind.creationFailed ≠ ShimErrKind.alreadyExists := by
  decide

/-- C8 amended: whenever anything occupies `shims_dir/shim_name`,
`create_shim` fails and leaves the occupant untouched — with the
already-exists error when `Path.exists()` sees the occupant, but with the
creation-failed error (wrapping the OS file-exists error) when the
occupant is a symlink whose own target is broken. -/
theorem create_shim_no_overwrite (occ : Occupant) (symlinkOk targetExists : Bool)
    (h : occ ≠ .vacant) :
    (createShim occ symlinkOk targetExists).2 = occ
    ∧ (∃ k, (createShim occ symlinkOk targetExists).1 = .error k)
    ∧ (occupantExists occ = true →
        (createShim occ symlinkOk targetExists).1 = .error .alreadyExists)
    ∧ (occ = .symlinkTo false →
        (createShim occ symlinkOk targetExists).1 = .error .creationFailed) := by
  cases occ with
  | vacant => exact absurd rfl h
  | regularFile =>
    exact ⟨rfl, ⟨.alreadyExists, rfl⟩, fun _ => rfl,
      fun hc => absurd hc (by decide)⟩
  | directory =>
    exact ⟨rfl, ⟨.alreadyExists, rfl⟩, fun _ => rfl,
      fun hc => absurd hc (by decide)⟩
  | symlinkTo te =>
    cases te with
    | false =>
      exact ⟨rfl, ⟨.creationFailed, rfl⟩, fun hc => absurd hc (by decide),
        fun _ => rfl⟩
    | true =>
      exact ⟨rfl, ⟨.alreadyExists, rfl⟩, fun _ => rfl,
        fun hc => absurd hc (by decide)⟩

/-- Closed instance of `create_shim_no_overwrite` at a regular file
occupying the shim path. -/
theorem create_shim_no_overwrite_witness :
    (createShim .regularFile true true).2 = Occupant.regularFile
    ∧ (∃ k, (createShim .regularFile true true).1 = .error k)
    ∧ (occupantExists .regularFile = true →
        (createShim .regularFile true true).1 = .error .alreadyExists)
    ∧ (Occupant.regularFile = Occupant.symlinkTo false →
        (createShim .regularFile true true).1 = .error .creationFailed) :=
  create_shim_no_overwrite .regularFile true true (by decide)

/-- C2 evidence: after the output-exists check has passed, a failure while
creating the archive does not raise `PackError`.  With no partial output
file the except block falls through and `pack` returns normally; with a
partial file whose unlink succeeds, the file is deleted but `pack` still
returns normally; the handler raises `PackError` only when the cleanup
unlink itself fails. -/
theorem pack_swallows_archive_failure :
    pack true false false (.raises false true)
      = (.returnedAfterFailure, false)
    ∧ pack true false false (.raises true true)
      = (.returnedAfterFailure, false)
    ∧ pack true false false (.raises true false)
      = (.raisedPackError .cleanupUnlinkFailed, true) := by
  decide

/-- C9: whenever the archive's extracted top level is not exactly one
directory (no items, several items, or a single non-directory item),
`rebuild` — once it reaches extraction: the archive exists, carries the
`.tar.gz` name, and the target is absent, empty, or its overwrite was
confirmed — terminates with the `RebuildError` carrying the
invalid-structure message, and the target root is left exactly as it
was. -/
theorem rebuild_rejects_bad_structure (target : Option (List String))
    (confirm : Bool) (items : List ExtractedItem)
    (hreach : (match target with
      | some c => c.isEmpty || confirm
      | none => true) = true)
    (hbad : singleRootDir items = false) :
    rebuildRun true true target confirm items = (.raisedRebuildError, target) := by
  cases target with
  | none =>
    cases items with
    | nil => simp [rebuildRun]
    | cons i rest =>
      cases rest with
      | nil =>
        simp only [singleRootDir] at hbad
        simp [rebuildRun, hbad]
      | cons j r => simp [rebuildRun]
  | some c =>
    have hc : (!c.isEmpty && !confirm) = false := by
      simp only at hreach
      cases hE : c.isEmpty <;> cases hCf : confirm <;> simp_all
    cases items with
    | nil => simp [rebuildRun, hc]
    | cons i rest =>
      cases rest with
      | nil =>
        simp only [singleRootDir] at hbad
        simp [rebuildRun, hc, hbad]
      | cons j r => simp [rebuildRun, hc]

/-- Closed instance of `rebuild_rejects_bad_structure`: an archive whose
top level holds two directories is rejected, neither being picked. -/
theorem rebuild_rejects_bad_structure_witness :
    rebuildRun true true (some []) false
      [ExtractedItem.mk "a" true [], ExtractedItem.mk "b" true []]
      = (.raisedRebuildError, some []) :=
  rebuild_rejects_bad_structure (some []) false
    [ExtractedItem.mk "a" true [], ExtractedItem.mk "b" true []]
    (by decide) (by decide)

theorem not_mem_filter_bne (l : List String) (a : String) :
    a ∉ l.filter (fun d => d != a) := by
  intro ha
  have h := (List.mem_filter.mp ha).2
  simp at h

/-- C4: for every install whose materialization step fails, `install_app`
raises `InstallError` carrying the underlying cause, the application
directory (partial or not) is absent afterwards, and the metadata is not
modified; the metadata entry is upserted exactly when materialization
succeeds. -/
theorem install_app_rollback (σ : InstallState) (inputKind : PathKind)
    (inputName : List Char) (override : Option String) (cause : String)
    (partialLeft : Bool) (derived : List Char)
    (hkind : inputKind ≠ .absent)
    (hname : extractAppName inputKind inputName = .ok derived) :
    (installApp σ inputKind inputName override (.failure cause partialLeft)).1
      = .error (.installError cause)
    ∧ (installApp σ inputKind inputName override
        (.failure cause partialLeft)).2.apps = σ.apps
    ∧ override.getD (String.mk derived)
        ∉ (installApp σ inputKind inputName override
            (.failure cause partialLeft)).2.appDirs
    ∧ (installApp σ inputKind inputName override .success).2.apps
      = addAppToMetadata (override.getD (String.mk derived))
          (appsRel (override.getD (String.mk derived))) σ.apps := by
  simp only [installApp, hname, if_neg hkind]
  exact ⟨trivial, trivial, not_mem_filter_bne _ _, trivial⟩

/-- Closed instance of `install_app_rollback`: installing `app.zip` over a
state that already holds an unrelated app, with the archive extraction
failing and leaving a partial directory behind. -/
theorem install_app_rollback_witness :
    (installApp (InstallState.mk ["x"] [AppEntry.mk "x" "apps/x"]) .file
        "app.zip".toList none (.failure "boom" true)).1
      = .error (.installError "boom")
    ∧ (installApp (InstallState.mk ["x"] [AppEntry.mk "x" "apps/x"]) .file
        "app.zip".toList none (.failure "boom" true)).2.apps
      = [AppEntry.mk "x" "apps/x"]
    ∧ (Option.none.getD (String.mk "app".toList))
        ∉ (installApp (InstallState.mk ["x"] [AppEntry.mk "x" "apps/x"]) .file
            "app.zip".toList none (.failure "boom" true)).2.appDirs
    ∧ (installApp (InstallState.mk ["x"] [AppEntry.mk "x" "apps/x"]) .file
        "app.zip".toList none .success).2.apps
      = addAppToMetadata (Option.none.getD (String.mk "app".toList))
          (appsRel (Option.none.getD (String.mk "app".toList)))
          [AppEntry.mk "x" "apps/x"] :=
  install_app_rollback (InstallState.mk ["x"] [AppEntry.mk "x" "apps/x"]) .file
    "app.zip".toList none "boom" true "app".toList (by decide) (by decide)

/-- C10: reinstalling over an already-installed application deletes the old
application directory before materialization, so when materialization then
fails nothing is restored: afterwards neither the old nor a partial new
directory of that name exists — the directory list is exactly the old one
with that name removed — while the metadata still holds whatever (now
stale) entries it held before the call. -/
theorem install_app_overwrite_no_restore (σ : InstallState)
    (inputKind : PathKind) (inputName : List Char) (override : Option String)
    (cause : String) (partialLeft : Bool) (derived : List Char)
    (hkind : inputKind ≠ .absent)
    (hname : extractAppName inputKind inputName = .ok derived)
    (_hinstalled : override.getD (String.mk derived) ∈ σ.appDirs) :
    (installApp σ inputKind inputName override (.failure cause partialLeft)).1
      = .error (.installError cause)
    ∧ (installApp σ inputKind inputName override
          (.failure cause partialLeft)).2.appDirs
      = σ.appDirs.filter (fun d => d != override.getD (String.mk derived))
    ∧ (installApp σ inputKind inputName override
        (.failure cause partialLeft)).2.apps = σ.apps := by
  simp only [installApp, hname, if_neg hkind]
  refine ⟨trivial, ?_, trivial⟩
  cases partialLeft with
  | true => simp [List.filter_filter]
  | false => simp [List.filter_filter]

/-- Closed instance of `install_app_overwrite_no_restore`: reinstalling
`sample.exe` over an existing `sample` with the copy failing. -/
theorem install_app_overwrite_no_restore_witness :
    (installApp (InstallState.mk ["sample"] [AppEntry.mk "sample" "apps/sample"])
        .file "sample.exe".toList none (.failure "copy failed" false)).1
      = .error (.installError "copy failed")
    ∧ (installApp (InstallState.mk ["sample"] [AppEntry.mk "sample" "apps/sample"])
        .file "sample.exe".toList none (.failure "copy failed" false)).2.appDirs
      = ["sample"].filter (fun d => d != Option.none.getD (String.mk "sample".toList))
    ∧ (installApp (InstallState.mk ["sample"] [AppEntry.mk "sample" "apps/sample"])
        .file "sample.exe".toList none (.failure "copy failed" false)).2.apps
      = [AppEntry.mk "sample" "apps/sample"] :=
  install_app_overwrite_no_restore
    (InstallState.mk ["sample"] [AppEntry.mk "sample" "apps/sample"]) .file
    "sample.exe".toList none "copy failed" false "sample".toList
    (by decide) (by decide) (by decide)

/-- A second independent failure of idempotence, through a metadata path
that resolves through `shims_dir`: entry `w` points at `shims/x` and `x`
is a symlink to an existing directory outside `apps_dir`.  The first fix
run audits both entries healthy but unlinks the external shim `x`; the
second run then finds `shims/x` missing, classifies `w` invalid and
prunes it.  This is why the amended idempotence theorem also requires
every entry's relative path to be out of reach of the fix's deletions
(its `relStable` hypothesis): the first three hypotheses alone hold for
this state. -/
theorem health_fix_shims_path_not_idempotent :
    (healthFix (healthFix (HealthState.mk
        [HEntry.mk "a" (.underApps "a"), HEntry.mk "w" (.underShims "x")]
        [("a", AppChild.childDir true)]
        [("x", ShimNode.link (.outsideApps .dirNonempty))]))
      ≠ healthFix (HealthState.mk
        [HEntry.mk "a" (.underApps "a"), HEntry.mk "w" (.underShims "x")]
        [("a", AppChild.childDir true)]
        [("x", ShimNode.link (.outsideApps .dirNonempty))]))
    ∧ (∀ e ∈ (HealthState.mk
        [HEntry.mk "a" (.underApps "a"), HEntry.mk "w" (.underShims "x")]
        [("a", AppChild.childDir true)]
        [("x", ShimNode.link (.outsideApps .dirNonempty))]).meta,
        (entryInvalid [("a", AppChild.childDir true)]
            [("x", ShimNode.link (.outsideApps .dirNonempty))] e
          || entryEmpty [("a", AppChild.childDir true)]
            [("x", ShimNode.link (.outsideApps .dirNonempty))] e) = false) := by
  decide

end Oppm
